import Mathlib

/-!
# Verification of the rybbit CSV import pipeline

Shallow embedding of the server-side batch ingestion handler
(`src/server/src/api/sites/batchImportEvents.ts`), the import creation
endpoint (`src/server/src/api/sites/createSiteImport.ts`), and the
client-side streaming CSV parser worker
(`src/client/src/lib/import/types.ts`), together with theorems settling
the frozen specification claims.
-/

namespace Rybbit

/-- The `status` field of an import record: `pending | processing | completed | failed`. -/
inductive ImportStatusV where
  | pending
  | processing
  | completed
  | failed
deriving DecidableEq, Repr

/-- One Umami CSV row after column mapping (`UmamiEvent` in both client and
server code).  All fields are strings; the server-side zod schema requires
every field to be present (as a string, possibly empty). -/
structure UmamiEvent where
  session_id : String := ""
  hostname : String := ""
  browser : String := ""
  os : String := ""
  device : String := ""
  screen : String := ""
  language : String := ""
  country : String := ""
  region : String := ""
  city : String := ""
  url_path : String := ""
  url_query : String := ""
  referrer_path : String := ""
  referrer_query : String := ""
  referrer_domain : String := ""
  page_title : String := ""
  event_type : String := ""
  event_name : String := ""
  distinct_id : String := ""
  created_at : String := ""
deriving DecidableEq, Repr

/-- The durable import record (`ImportRecord` / row of the `importStatus`
table) as seen and mutated by `batchImportEvents`. -/
structure ImportRecord where
  importId : String
  siteId : Nat
  platform : Option String
  status : ImportStatusV
  importedEvents : Nat
  errorMessage : Option String
deriving DecidableEq, Repr

/-- The body+params of a submit-batch request, before zod validation.
`events`, `importId`, `batchIndex`, `totalBatches` come from the body,
`siteId` from the `site` path param. -/
structure BatchRequest where
  siteId : Nat
  events : List UmamiEvent
  batchIndex : Nat
  totalBatches : Nat
deriving Repr

/-- The zod schema `batchImportRequestSchema`:
`events: array.min(1).max(10000)`, `batchIndex: int.min(0)`,
`totalBatches: int.min(1)`.  `batchIndex ≥ 0` is automatic for `Nat`. -/
def validBatchRequest (req : BatchRequest) : Bool :=
  1 ≤ req.events.length && req.events.length ≤ 10000 && 1 ≤ req.totalBatches

/-- The external collaborators of `batchImportEvents`, fixed for one request:
authorization, the import-record lookup, the `sites` table lookup, the fresh
quota tracker (`canImportEvent` plus its summary figures), the platform
mapper, and whether the ClickHouse bulk insert succeeds. -/
structure BatchEnv where
  userHasAccess : Bool
  importRecord : Option ImportRecord
  siteOrg : Option String
  canImportEvent : String → Bool
  oldestAllowedMonth : String
  totalMonthsInWindow : Nat
  monthsAtCapacity : Nat
  transform : List UmamiEvent → List UmamiEvent
  insertOk : Bool

/-- The distinct responses `batchImportEvents` can send. -/
inductive BatchResponse where
  /-- 400 `Validation error`. -/
  | validationError
  /-- 403 `Forbidden`. -/
  | forbidden
  /-- 404 `Import not found`. -/
  | importNotFound
  /-- 400 `Import does not belong to this site`. -/
  | siteMismatch
  /-- 400 `Import already completed`. -/
  | alreadyCompleted
  /-- 400 `Import has failed`. -/
  | alreadyFailed
  /-- 404 `Site not found`. -/
  | siteNotFound
  /-- 400 `{success: false, error: "Quota exceeded", message}`. -/
  | quotaExceeded (message : String)
  /-- 200 `{success: true, importedCount, message}`. -/
  | success (importedCount : Nat)
  /-- 500 `{success: false, error: "Failed to insert events"}`. -/
  | insertFailed
deriving DecidableEq, Repr

/-- Whether a response reports `success: true` to the caller. -/
def BatchResponse.isSuccess : BatchResponse → Bool
  | .success _ => true
  | _ => false

/-- The server-side quota re-filter loop of `batchImportEvents`
(lines 142-152): events without a `created_at` are silently dropped
(`continue`), events whose timestamp the quota tracker accepts are kept in
order, the rest are dropped and counted in `skippedDueToQuota`.
Returns `(eventsWithinQuota, skippedDueToQuota)`. -/
def quotaFilter (canImportEvent : String → Bool) : List UmamiEvent → List UmamiEvent × Nat
  | [] => ([], 0)
  | e :: es =>
      let rest := quotaFilter canImportEvent es
      if e.created_at = "" then rest
      else if canImportEvent e.created_at then (e :: rest.1, rest.2)
      else (rest.1, rest.2 + 1)

/-- The quota-exceeded error message built at lines 157-159, from the batch
size, the batch index and the quota tracker's summary. -/
def quotaErrorMessage (env : BatchEnv) (req : BatchRequest) : String :=
  let n := req.events.length
  let b := req.batchIndex
  let w := env.totalMonthsInWindow
  let c := env.monthsAtCapacity
  s!"All {n} events in batch {b} exceeded monthly quotas or fell outside the {w}-month historical window. {c} of {w} months are at full capacity."

/-- Lines 101-104: `updateImportStatus(importId, "processing")` when the
record is still `pending`. -/
def pendingToProcessing (r : ImportRecord) : ImportRecord :=
  if r.status = .pending then { r with status := .processing } else r

/-- Lines 106-120: platform auto-detection when unset — the only supported
source is Umami, so the detected value is `"umami"`, persisted once. -/
def autoDetectPlatform (r : ImportRecord) : ImportRecord :=
  if r.platform = none then { r with platform := some "umami" } else r

/-- Lines 134-223 of `batchImportEvents`: the quota re-filter, the
all-rows-dropped handling (status escalation for the first/sole batch and a
400 quota-exceeded response), the transform, the ClickHouse bulk insert
(failure caught and reported as a 500 without touching the record) and the
progress update.  `r2` is the record after the pending→processing
transition and platform auto-detection. -/
def processQuotaAndInsert (env : BatchEnv) (req : BatchRequest)
    (r2 : ImportRecord) : BatchResponse × Option ImportRecord :=
  let filtered := quotaFilter env.canImportEvent req.events
  if filtered.1.length = 0 ∧ req.events.length > 0 then
    let msg := quotaErrorMessage env req
    let r3 :=
      if req.batchIndex = 0 ∨ req.totalBatches = 1 then
        { r2 with status := .failed, errorMessage := some msg }
      else r2
    (.quotaExceeded msg, some r3)
  else
    let transformed := env.transform filtered.1
    if transformed.length = 0 then (.success 0, some r2)
    else if ¬ env.insertOk then (.insertFailed, some r2)
    else
      (.success transformed.length,
       some { r2 with importedEvents := r2.importedEvents + transformed.length })

/-- The batch ingestion handler `batchImportEvents`, as a pure function from
the request and its environment to the response together with the
updated import record (`none` when no record with the given id exists).
Mirrors the source control flow: zod validation, authorization, import
lookup, site-mismatch and terminal-state checks, pending→processing
transition, platform auto-detection, `sites` lookup, then
`processQuotaAndInsert`. -/
def batchImportEvents (env : BatchEnv) (req : BatchRequest) :
    BatchResponse × Option ImportRecord :=
  if ¬ validBatchRequest req then (.validationError, env.importRecord)
  else if ¬ env.userHasAccess then (.forbidden, env.importRecord)
  else
    match env.importRecord with
    | none => (.importNotFound, none)
    | some r =>
      if r.siteId ≠ req.siteId then (.siteMismatch, some r)
      else if r.status = .completed then (.alreadyCompleted, some r)
      else if r.status = .failed then (.alreadyFailed, some r)
      else
        let r2 := autoDetectPlatform (pendingToProcessing r)
        match env.siteOrg with
        | none => (.siteNotFound, some r2)
        | some _ => processQuotaAndInsert env req r2

/-! ## Client-side streaming parser worker -/

/-- `CHUNK_SIZE = 5000` — rows per batch sent to the main thread. -/
def CHUNK_SIZE : Nat := 5000

/-- `PROGRESS_UPDATE_INTERVAL = 1000` — progress cadence in rows. -/
def PROGRESS_UPDATE_INTERVAL : Nat := 1000

/-- The four date bounds installed by `createDateRangeFilter`: quota-enforced
`earliestAllowedDate`/`latestAllowedDate` and the optional user-specified
`userStartDate`/`userEndDate`.  Luxon `DateTime` instants are modelled as
integers (milliseconds since epoch); `none` models a `null` bound. -/
structure DateRangeCfg where
  earliestAllowedDate : Option Int
  latestAllowedDate : Option Int
  userStartDate : Option Int
  userEndDate : Option Int
deriving Repr

/-- `isDateInRange`: parse the timestamp with luxon
(`DateTime.fromFormat(dateStr, "yyyy-MM-dd HH:mm:ss")`, modelled by the
external `parseTs`, `none` for an invalid parse); an invalid parse returns
`false`, otherwise each configured bound is checked in turn. -/
def isDateInRange (parseTs : String → Option Int) (cfg : DateRangeCfg)
    (dateStr : String) : Bool :=
  match parseTs dateStr with
  | none => false
  | some createdAt =>
    if cfg.earliestAllowedDate.any (fun e => createdAt < e) then false
    else if cfg.latestAllowedDate.any (fun l => l < createdAt) then false
    else if cfg.userStartDate.any (fun s => createdAt < s) then false
    else if cfg.userEndDate.any (fun e => e < createdAt) then false
    else true

/-- The worker's module-level mutable state: the accumulating batch, the next
chunk index, the cumulative counters, the capped error-detail list and the
progress-cadence marker. -/
structure ParserState where
  currentBatch : List UmamiEvent
  chunkIndex : Nat
  totalParsed : Nat
  totalSkipped : Nat
  totalErrors : Nat
  errorDetails : List (Nat × String)
  lastProgressUpdate : Nat
deriving Repr

/-- The state after the `PARSE_START` reset block. -/
def ParserState.initial : ParserState :=
  { currentBatch := [], chunkIndex := 0, totalParsed := 0, totalSkipped := 0,
    totalErrors := 0, errorDetails := [], lastProgressUpdate := 0 }

/-- Worker-to-main messages emitted during a parse (`WorkerMessageToMain`,
less the `ERROR` case which aborts the parse). -/
inductive OutMsg where
  | progress (parsed skipped errors : Nat)
  | chunkReady (events : List UmamiEvent) (chunkIndex : Nat)
  | complete (totalParsed totalSkipped totalErrors : Nat)
      (errorDetails : List (Nat × String))
deriving DecidableEq, Repr

/-- `sendChunk`: post a `CHUNK_READY` message with the current batch and
chunk index when the batch is nonempty, then advance the index and clear the
batch; a no-op on an empty batch. -/
def sendChunk (st : ParserState) : ParserState × List OutMsg :=
  if st.currentBatch.length > 0 then
    ({ st with chunkIndex := st.chunkIndex + 1, currentBatch := [] },
     [.chunkReady st.currentBatch st.chunkIndex])
  else (st, [])

/-- `sendProgress`: post the cumulative `{parsed, skipped, errors}` counters. -/
def sendProgress (st : ParserState) : List OutMsg :=
  [.progress st.totalParsed st.totalSkipped st.totalErrors]

/-- `handleParsedRow`: skip (count only) a row with an empty/absent
`created_at`; skip a row whose timestamp is not in range (which includes a
timestamp that fails to parse); otherwise append the row to the current
batch, bump `totalParsed`, flush a chunk on reaching `CHUNK_SIZE`, and emit
progress at the fixed cadence. -/
def handleParsedRow (parseTs : String → Option Int) (cfg : DateRangeCfg)
    (st : ParserState) (row : UmamiEvent) : ParserState × List OutMsg :=
  if row.created_at = "" then
    ({ st with totalSkipped := st.totalSkipped + 1 }, [])
  else if ¬ isDateInRange parseTs cfg row.created_at then
    ({ st with totalSkipped := st.totalSkipped + 1 }, [])
  else
    let st1 := { st with currentBatch := st.currentBatch ++ [row],
                         totalParsed := st.totalParsed + 1 }
    let flushed :=
      if st1.currentBatch.length ≥ CHUNK_SIZE then sendChunk st1 else (st1, [])
    let st2 := flushed.1
    if st2.totalParsed - st2.lastProgressUpdate ≥ PROGRESS_UPDATE_INTERVAL then
      ({ st2 with lastProgressUpdate := st2.totalParsed },
       flushed.2 ++ sendProgress st2)
    else (st2, flushed.2)

/-- One `step` callback result from Papa.parse: the parsed row object (when
one was produced) and the per-row parse errors attached to this step. -/
structure StepResult where
  data : Option UmamiEvent
  errors : List String
deriving Repr

/-- The `step` callback of `parseCSV`: when `results.data` is present the row
is handed to `handleParsedRow` and `rowIndex` incremented; when
`results.errors` is nonempty `totalErrors` is incremented and, below the cap
of 100, an error detail `{row, message}` is recorded.  The state is paired
with the running `rowIndex`. -/
def stepCallback (parseTs : String → Option Int) (cfg : DateRangeCfg)
    (acc : ParserState × Nat) (res : StepResult) : (ParserState × Nat) × List OutMsg :=
  let st := acc.1
  let rowIndex := acc.2
  let handled :=
    match res.data with
    | some row => ((handleParsedRow parseTs cfg st row).1, rowIndex + 1,
                   (handleParsedRow parseTs cfg st row).2)
    | none => (st, rowIndex, [])
  let st1 := handled.1
  let rowIndex1 := handled.2.1
  let msgs := handled.2.2
  if res.errors.length > 0 then
    let st2 :=
      { st1 with totalErrors := st1.totalErrors + 1,
                 errorDetails :=
                   if st1.errorDetails.length < 100 then
                     st1.errorDetails ++
                       [(rowIndex1, String.intercalate ", " res.errors)]
                   else st1.errorDetails }
    ((st2, rowIndex1), msgs)
  else ((st1, rowIndex1), msgs)

/-- The streaming phase of `parseCSV`: fold the `step` callback over the
stream of step results, accumulating the posted messages in order. -/
def runSteps (parseTs : String → Option Int) (cfg : DateRangeCfg)
    (acc : ParserState × Nat) : List StepResult → (ParserState × Nat) × List OutMsg
  | [] => (acc, [])
  | res :: rest =>
      let step := stepCallback parseTs cfg acc res
      let tail := runSteps parseTs cfg step.1 rest
      (tail.1, step.2 ++ tail.2)

/-- `parseCSV` end to end on a finite stream: run every `step`, then the
`complete` callback posts the final chunk (if any), a final progress update
and the `COMPLETE` summary.  Returns the posted messages in order. -/
def parseCSV (parseTs : String → Option Int) (cfg : DateRangeCfg)
    (stream : List StepResult) : List OutMsg :=
  let run := runSteps parseTs cfg (ParserState.initial, 0) stream
  let st := run.1.1
  let final := sendChunk st
  run.2 ++ final.2 ++ sendProgress final.1 ++
    [.complete final.1.totalParsed final.1.totalSkipped final.1.totalErrors
       final.1.errorDetails]

/-- Select the `CHUNK_READY` messages as `(events, chunkIndex)` pairs. -/
def chunkMsgs (msgs : List OutMsg) : List (List UmamiEvent × Nat) :=
  msgs.filterMap fun m =>
    match m with
    | .chunkReady evs i => some (evs, i)
    | _ => none

/-! ## Import concurrency limiter -/

/-- A stored import as the limiter sees it: its organization and status. -/
structure LimiterImport where
  organizationId : String
  status : ImportStatusV
deriving DecidableEq, Repr

/-- An import counts against the concurrency limit while non-terminal. -/
def LimiterImport.isActive (r : LimiterImport) : Bool :=
  r.status = .pending || r.status = .processing

/-- The import-record store as the limiter sees it, plus an id source. -/
structure LimiterState where
  imports : List LimiterImport
  nextId : Nat
deriving Repr

/-- Number of `pending`/`processing` imports of one organization. -/
def activeImportCount (s : LimiterState) (org : String) : Nat :=
  (s.imports.filter fun r => r.organizationId = org && r.isActive).length

/-- Machine-distinguishable failure reasons for import creation; the
concurrency-limit breach is its own constructor, distinct from a generic
error. -/
inductive CreateFailureReason where
  | concurrencyLimit (maxConcurrent : Nat)
  | genericError (message : String)
deriving DecidableEq, Repr

/-- Result of `createImportWithConcurrencyCheck`:
`{success, importId} | {success: false, reason}`. -/
inductive CreateImportResult where
  | created (importId : Nat)
  | rejected (reason : CreateFailureReason)
deriving DecidableEq, Repr

/-- Modelled from the spec: `ImportLimiter.createImportWithConcurrencyCheck`
(source not under `src/`; only its caller `createSiteImport.ts` is).  Per
§4.2, atomically — serialized per organization — count the organization's
currently non-terminal (`pending`/`processing`) imports; at or above the
configured maximum, fail with a reason describing the limit; otherwise
persist the new record with `status = pending` and return its id. -/
def createImportWithConcurrencyCheck (maxConcurrent : Nat) (s : LimiterState)
    (org : String) : CreateImportResult × LimiterState :=
  if activeImportCount s org ≥ maxConcurrent then
    (.rejected (.concurrencyLimit maxConcurrent), s)
  else
    (.created s.nextId,
     { imports := ⟨org, .pending⟩ :: s.imports, nextId := s.nextId + 1 })

/-- A serialized sequence of creation attempts (the interleaving of any set
of concurrent attempts, since per §4.2 each check-and-insert is atomic).
Returns the final store state. -/
def runCreates (maxConcurrent : Nat) (s : LimiterState) :
    List String → LimiterState
  | [] => s
  | org :: rest =>
      runCreates maxConcurrent
        (createImportWithConcurrencyCheck maxConcurrent s org).2 rest

/-! ## A concrete timestamp parse and concrete fixtures

`parseTsModel` instantiates the abstract luxon parse for concrete
witnesses; the fixtures below are concrete records, environments and
requests evaluated in witness and counterexample theorems. -/

/-- Value of a decimal digit character, `none` otherwise. -/
def digitVal (c : Char) : Option Nat :=
  if c.isDigit then some (c.toNat - 48) else none

/-- Order-preserving integer key of a calendar timestamp (fields within
their textual ranges), standing in for a luxon instant. -/
def tsKey (y mo d h mi s : Nat) : Int :=
  ((((((y : Int) * 13 + mo) * 32 + d) * 24 + h) * 60 + mi) * 60 + s)

/-- The two-digit decimal number at positions `i`, `i+1`. -/
def twoDigitsAt (cs : List Char) (i : Nat) : Option Nat := do
  let a ← (cs.get? i).bind digitVal
  let b ← (cs.get? (i + 1)).bind digitVal
  pure (a * 10 + b)

/-- Model of luxon `DateTime.fromFormat(s, "yyyy-MM-dd HH:mm:ss", utc)`
(an external library): accepts exactly strings of that textual shape with
fields in range, mapped to the order-preserving key `tsKey`; anything else
is an invalid parse (`none`).  Luxon additionally rejects impossible
calendar dates such as February 30; the fixtures below use only clearly
valid or clearly malformed strings, on which this model and luxon agree. -/
def parseTsModel (s : String) : Option Int := do
  let cs := s.toList
  guard (cs.length = 19)
  guard (cs.get? 4 = some '-' ∧ cs.get? 7 = some '-' ∧ cs.get? 10 = some ' '
    ∧ cs.get? 13 = some ':' ∧ cs.get? 16 = some ':')
  let yh ← twoDigitsAt cs 0
  let yl ← twoDigitsAt cs 2
  let mo ← twoDigitsAt cs 5
  let da ← twoDigitsAt cs 8
  let ho ← twoDigitsAt cs 11
  let mi ← twoDigitsAt cs 14
  let se ← twoDigitsAt cs 17
  guard (1 ≤ mo ∧ mo ≤ 12 ∧ 1 ≤ da ∧ da ≤ 31 ∧ ho ≤ 23 ∧ mi ≤ 59 ∧ se ≤ 59)
  pure (tsKey (yh * 100 + yl) mo da ho mi se)

/-- A CSV row whose mapped fields are all empty except `created_at`. -/
def sampleEvent (ts : String) : UmamiEvent := { created_at := ts }

/-- A mid-import record: `processing`, platform set, 100 rows imported. -/
def recProcessing : ImportRecord :=
  { importId := "imp-1", siteId := 7, platform := some "umami",
    status := .processing, importedEvents := 100, errorMessage := none }

/-- A freshly created record: `pending`, platform unset, nothing imported. -/
def recPending : ImportRecord :=
  { importId := "imp-1", siteId := 7, platform := none,
    status := .pending, importedEvents := 0, errorMessage := none }

/-- `recProcessing` after terminal completion. -/
def recCompleted : ImportRecord := { recProcessing with status := .completed }

/-- A baseline environment: authorized, record `recProcessing`, site found,
a quota tracker that rejects every timestamp (six of six months at
capacity), the identity mapper, a healthy event store. -/
def envBase : BatchEnv :=
  { userHasAccess := true, importRecord := some recProcessing,
    siteOrg := some "org-1", canImportEvent := fun _ => false,
    oldestAllowedMonth := "202404", totalMonthsInWindow := 6,
    monthsAtCapacity := 6, transform := fun l => l, insertOk := true }

/-- A well-formed single-row request for site 7, first of one batch. -/
def reqOk : BatchRequest :=
  { siteId := 7, events := [sampleEvent "2024-03-15 10:00:00"],
    batchIndex := 0, totalBatches := 1 }

/-- A request with an empty `events` array (rejected by the zod schema). -/
def reqEmpty : BatchRequest :=
  { siteId := 7, events := [], batchIndex := 0, totalBatches := 1 }

/-- A well-formed single-row request: second batch of two. -/
def reqBatch1of2 : BatchRequest :=
  { siteId := 7, events := [sampleEvent "2024-03-15 10:00:00"],
    batchIndex := 1, totalBatches := 2 }

/-- The effective date range for the fixtures: 2024-01-01 through
2024-06-30 (quota-enforced), no user-specified narrowing. -/
def cfgW : DateRangeCfg :=
  { earliestAllowedDate := some (tsKey 2024 1 1 0 0 0),
    latestAllowedDate := some (tsKey 2024 6 30 23 59 59),
    userStartDate := none, userEndDate := none }

/-- Environment of a batch against a completed import. -/
def envC2 : BatchEnv := { envBase with importRecord := some recCompleted }

/-- Environment with everything importable but a failing event store. -/
def envC3 : BatchEnv :=
  { envBase with canImportEvent := fun _ => true, insertOk := false }

/-- Environment of a first batch against a fresh pending import whose site
row is missing from the `sites` table. -/
def envC10 : BatchEnv :=
  { envBase with importRecord := some recPending, siteOrg := none }

/-- A row whose timestamp is present and in range for `cfgW`. -/
def rowGood : UmamiEvent := sampleEvent "2024-03-15 10:00:00"

/-- A row whose timestamp field is empty (missing `created_at`). -/
def rowNoTs : UmamiEvent := sampleEvent ""

/-- A row whose timestamp is present but fails to parse. -/
def rowBadTs : UmamiEvent := sampleEvent "not-a-date"

/-- A three-step stream: a good row, a row without timestamp, and a step
carrying only a row-level parse error. -/
def streamW : List StepResult :=
  [{ data := some rowGood, errors := [] },
   { data := some rowNoTs, errors := [] },
   { data := none, errors := ["Too few fields"] }]

/-- A limiter store holding one active and one terminal import of
`"org-1"`. -/
def limStateW : LimiterState :=
  { imports := [⟨"org-1", .processing⟩, ⟨"org-1", .completed⟩], nextId := 5 }

/-! ## Helper lemmas on the batch handler -/

theorem pendingToProcessing_status (r : ImportRecord)
    (h : r.status = .pending ∨ r.status = .processing) :
    (pendingToProcessing r).status = .processing := by
  rcases h with h | h <;> simp [pendingToProcessing, h]

theorem pendingToProcessing_importedEvents (r : ImportRecord) :
    (pendingToProcessing r).importedEvents = r.importedEvents := by
  unfold pendingToProcessing; split <;> rfl

theorem autoDetectPlatform_status (r : ImportRecord) :
    (autoDetectPlatform r).status = r.status := by
  unfold autoDetectPlatform; split <;> rfl

theorem autoDetectPlatform_importedEvents (r : ImportRecord) :
    (autoDetectPlatform r).importedEvents = r.importedEvents := by
  unfold autoDetectPlatform; split <;> rfl

/-- On a request that passes validation, authorization, lookup, the
site-match and the terminal-state checks, the handler reduces to the quota
re-filter and insert stage, acting on the record after the
pending→processing transition and platform auto-detection. -/
theorem batchImportEvents_reachable (env : BatchEnv) (req : BatchRequest)
    (r : ImportRecord) (org : String)
    (hv : validBatchRequest req = true) (ha : env.userHasAccess = true)
    (hr : env.importRecord = some r) (hs : r.siteId = req.siteId)
    (hst : r.status = .pending ∨ r.status = .processing)
    (ho : env.siteOrg = some org) :
    batchImportEvents env req
      = processQuotaAndInsert env req (autoDetectPlatform (pendingToProcessing r)) := by
  rcases hst with h | h <;> simp [batchImportEvents, hv, ha, hr, hs, ho, h]

/-! ## C9 — batch-size validation precedes everything -/

/-- C9: a submit-batch request whose events array has fewer than 1 or more
than 10000 rows is rejected as a validation error and the stored record is
returned untouched, whatever the rest of the environment says
(authorization, record lookup, site lookup, quota, store health). -/
theorem C9_batch_size_validated_first (env : BatchEnv) (req : BatchRequest)
    (h : req.events.length < 1 ∨ req.events.length > 10000) :
    batchImportEvents env req = (.validationError, env.importRecord) := by
  have hv : ¬ (validBatchRequest req = true) := by
    simp only [validBatchRequest, Bool.and_eq_true, decide_eq_true_eq]
    omega
  unfold batchImportEvents
  simp [hv]

/-- Witness for C9 at the empty-events request against a healthy
environment. -/
theorem C9_batch_size_validated_first_witness :
    batchImportEvents envBase reqEmpty = (.validationError, envBase.importRecord) :=
  C9_batch_size_validated_first envBase reqEmpty (Or.inl (by decide))

/-! ## C2 — terminal states are immutable -/

/-- C2: once the import's status is completed or failed, any subsequent
batch submission is rejected (never reported as a success) and changes
nothing: the stored record — status, platform, importedEvents — is exactly
what it was. -/
theorem C2_terminal_state_immutable (env : BatchEnv) (req : BatchRequest)
    (r : ImportRecord) (hr : env.importRecord = some r)
    (ht : r.status = .completed ∨ r.status = .failed) :
    (batchImportEvents env req).2 = some r ∧
      (batchImportEvents env req).1.isSuccess = false := by
  unfold batchImportEvents
  rcases ht with h | h <;>
    · by_cases hv : validBatchRequest req = true
      · by_cases ha : env.userHasAccess = true
        · by_cases hs : r.siteId = req.siteId
          · simp [hv, ha, hr, hs, h, BatchResponse.isSuccess]
          · simp [hv, ha, hr, hs, BatchResponse.isSuccess]
        · simp [hv, ha, hr, BatchResponse.isSuccess]
      · simp [hv, hr, BatchResponse.isSuccess]

/-- Witness for C2: a well-formed batch against a completed import. -/
theorem C2_terminal_state_immutable_witness :
    (batchImportEvents envC2 reqOk).2 = some recCompleted ∧
      (batchImportEvents envC2 reqOk).1.isSuccess = false :=
  C2_terminal_state_immutable envC2 reqOk recCompleted rfl (Or.inl rfl)

/-! ## C10 — site-not-found is rejected only after state changes -/

/-- C10: when the record is a fresh pending import with unset platform, the
request passes validation, authorization and the record checks, but the
`sites` row is missing, the handler answers 404 site-not-found — yet the
record it leaves behind has already been transitioned to processing with
the auto-detected platform persisted, so this rejection is not free of
state changes. -/
theorem C10_site_not_found_after_state_change (env : BatchEnv)
    (req : BatchRequest) (r : ImportRecord)
    (hv : validBatchRequest req = true) (ha : env.userHasAccess = true)
    (hr : env.importRecord = some r) (hs : r.siteId = req.siteId)
    (hp : r.status = .pending) (hpl : r.platform = none)
    (ho : env.siteOrg = none) :
    batchImportEvents env req
        = (.siteNotFound, some { r with status := .processing, platform := some "umami" })
      ∧ (batchImportEvents env req).2 ≠ env.importRecord := by
  have h1 : batchImportEvents env req
      = (.siteNotFound, some { r with status := .processing, platform := some "umami" }) := by
    simp [batchImportEvents, hv, ha, hr, hs, hp, ho, pendingToProcessing,
      autoDetectPlatform, hpl]
  refine ⟨h1, ?_⟩
  rw [h1, hr]
  intro heq
  rw [Option.some_inj] at heq
  have h2 := congrArg ImportRecord.status heq
  simp [hp] at h2

/-- Witness for C10: first batch of a fresh pending import whose site row
is missing. -/
theorem C10_site_not_found_after_state_change_witness :
    batchImportEvents envC10 reqOk
        = (.siteNotFound, some { recPending with status := .processing, platform := some "umami" })
      ∧ (batchImportEvents envC10 reqOk).2 ≠ envC10.importRecord :=
  C10_site_not_found_after_state_change envC10 reqOk recPending (by decide)
    rfl rfl rfl rfl rfl rfl

/-! ## Branch lemmas on the quota/insert stage -/

theorem processQuotaAndInsert_all_dropped_fail (env : BatchEnv)
    (req : BatchRequest) (r2 : ImportRecord)
    (hd : (quotaFilter env.canImportEvent req.events).1 = [])
    (hne : 0 < req.events.length)
    (hfb : req.batchIndex = 0 ∨ req.totalBatches = 1) :
    processQuotaAndInsert env req r2
      = (.quotaExceeded (quotaErrorMessage env req),
         some { r2 with status := .failed,
                        errorMessage := some (quotaErrorMessage env req) }) := by
  rcases hfb with h | h <;> simp [processQuotaAndInsert, hd, hne, h]

theorem processQuotaAndInsert_all_dropped_noop (env : BatchEnv)
    (req : BatchRequest) (r2 : ImportRecord)
    (hd : (quotaFilter env.canImportEvent req.events).1 = [])
    (hne : 0 < req.events.length)
    (hb : req.batchIndex ≠ 0) (ht : req.totalBatches ≠ 1) :
    processQuotaAndInsert env req r2
      = (.quotaExceeded (quotaErrorMessage env req), some r2) := by
  simp [processQuotaAndInsert, hd, hne, hb, ht]

theorem processQuotaAndInsert_survivors (env : BatchEnv) (req : BatchRequest)
    (r2 : ImportRecord)
    (hsur : (quotaFilter env.canImportEvent req.events).1 ≠ []) :
    processQuotaAndInsert env req r2
      = (if (env.transform (quotaFilter env.canImportEvent req.events).1).length = 0
         then (.success 0, some r2)
         else if ¬ env.insertOk then (.insertFailed, some r2)
         else (.success (env.transform (quotaFilter env.canImportEvent req.events).1).length,
               some { r2 with importedEvents :=
                        r2.importedEvents
                          + (env.transform (quotaFilter env.canImportEvent req.events).1).length })) := by
  simp [processQuotaAndInsert, hsur]

theorem processQuotaAndInsert_insert_failed (env : BatchEnv)
    (req : BatchRequest) (r2 : ImportRecord)
    (hsur : (quotaFilter env.canImportEvent req.events).1 ≠ [])
    (htr : (env.transform (quotaFilter env.canImportEvent req.events).1).length ≠ 0)
    (hins : env.insertOk = false) :
    processQuotaAndInsert env req r2 = (.insertFailed, some r2) := by
  rw [processQuotaAndInsert_survivors env req r2 hsur]
  simp [htr, hins]

theorem processQuotaAndInsert_insert_ok (env : BatchEnv) (req : BatchRequest)
    (r2 : ImportRecord)
    (hsur : (quotaFilter env.canImportEvent req.events).1 ≠ [])
    (htr : (env.transform (quotaFilter env.canImportEvent req.events).1).length ≠ 0)
    (hins : env.insertOk = true) :
    processQuotaAndInsert env req r2
      = (.success (env.transform (quotaFilter env.canImportEvent req.events).1).length,
         some { r2 with importedEvents :=
                  r2.importedEvents
                    + (env.transform (quotaFilter env.canImportEvent req.events).1).length }) := by
  rw [processQuotaAndInsert_survivors env req r2 hsur]
  simp [htr, hins]

/-- Unless the batch is fully quota-dropped on the first/sole batch, the
quota/insert stage leaves the record's status untouched. -/
theorem processQuotaAndInsert_status_of_not_escalated (env : BatchEnv)
    (req : BatchRequest) (r2 : ImportRecord)
    (h : ¬ ((quotaFilter env.canImportEvent req.events).1 = []
            ∧ (req.batchIndex = 0 ∨ req.totalBatches = 1))) :
    ∃ r', (processQuotaAndInsert env req r2).2 = some r'
      ∧ r'.status = r2.status := by
  by_cases hq : (quotaFilter env.canImportEvent req.events).1.length = 0
      ∧ req.events.length > 0
  · have hfb : ¬ (req.batchIndex = 0 ∨ req.totalBatches = 1) := by
      intro hx
      exact h ⟨List.length_eq_zero.mp hq.1, hx⟩
    refine ⟨r2, ?_, rfl⟩
    simp only [processQuotaAndInsert]
    rw [if_pos hq, if_neg hfb]
  · by_cases htr : (env.transform (quotaFilter env.canImportEvent req.events).1).length = 0
    · refine ⟨r2, ?_, rfl⟩
      simp only [processQuotaAndInsert]
      rw [if_neg hq, if_pos htr]
    · by_cases hins : env.insertOk
      · refine ⟨{ r2 with importedEvents :=
            r2.importedEvents
              + (env.transform (quotaFilter env.canImportEvent req.events).1).length },
          ?_, rfl⟩
        simp only [processQuotaAndInsert]
        rw [if_neg hq, if_neg htr, if_neg (not_not_intro hins)]
      · refine ⟨r2, ?_, rfl⟩
        simp only [processQuotaAndInsert]
        rw [if_neg hq, if_neg htr, if_pos hins]

/-! ## C4 — the exact condition for the failed transition -/

/-- C4: on a reachable non-terminal batch (validated, authorized, record
found, site matched, site row present), the import ends up `failed` exactly
when the quota re-filter drops every row and the batch is the first one or
the only one; in that case the persisted error message is the quota
summary (months at capacity out of the window) and the response is the
quota-exceeded error. -/
theorem C4_failed_exactly_on_first_or_sole_quota_drop (env : BatchEnv)
    (req : BatchRequest) (r : ImportRecord) (org : String)
    (hv : validBatchRequest req = true) (ha : env.userHasAccess = true)
    (hr : env.importRecord = some r) (hs : r.siteId = req.siteId)
    (hst : r.status = .pending ∨ r.status = .processing)
    (ho : env.siteOrg = some org) :
    ((∃ r', (batchImportEvents env req).2 = some r' ∧ r'.status = .failed)
        ↔ ((quotaFilter env.canImportEvent req.events).1 = []
            ∧ (req.batchIndex = 0 ∨ req.totalBatches = 1)))
      ∧ ((quotaFilter env.canImportEvent req.events).1 = []
         → (req.batchIndex = 0 ∨ req.totalBatches = 1)
         → batchImportEvents env req
             = (.quotaExceeded (quotaErrorMessage env req),
                some { autoDetectPlatform (pendingToProcessing r) with
                         status := .failed,
                         errorMessage := some (quotaErrorMessage env req) })) := by
  have hne : 0 < req.events.length := by
    simp only [validBatchRequest, Bool.and_eq_true, decide_eq_true_eq] at hv
    omega
  have hre := batchImportEvents_reachable env req r org hv ha hr hs hst ho
  have hst2 : (autoDetectPlatform (pendingToProcessing r)).status = .processing := by
    rw [autoDetectPlatform_status]
    exact pendingToProcessing_status r hst
  constructor
  · constructor
    · rintro ⟨r', h1, h2⟩
      by_contra hcon
      obtain ⟨r'', h3, h4⟩ :=
        processQuotaAndInsert_status_of_not_escalated env req
          (autoDetectPlatform (pendingToProcessing r)) hcon
      rw [hre] at h1
      rw [h1, Option.some_inj] at h3
      rw [← h3, h2] at h4
      rw [hst2] at h4
      exact absurd h4 (by simp)
    · rintro ⟨hd, hfb⟩
      rw [hre, processQuotaAndInsert_all_dropped_fail env req _ hd hne hfb]
      exact ⟨_, rfl, rfl⟩
  · intro hd hfb
    rw [hre, processQuotaAndInsert_all_dropped_fail env req _ hd hne hfb]

/-- Witness for C4: single-batch import with every row's month at
capacity — the response is the quota-exceeded error and the record ends
`failed` with the capacity summary. -/
theorem C4_failed_exactly_on_first_or_sole_quota_drop_witness :
    ((∃ r', (batchImportEvents envBase reqOk).2 = some r' ∧ r'.status = .failed)
        ↔ ((quotaFilter envBase.canImportEvent reqOk.events).1 = []
            ∧ (reqOk.batchIndex = 0 ∨ reqOk.totalBatches = 1)))
      ∧ ((quotaFilter envBase.canImportEvent reqOk.events).1 = []
         → (reqOk.batchIndex = 0 ∨ reqOk.totalBatches = 1)
         → batchImportEvents envBase reqOk
             = (.quotaExceeded (quotaErrorMessage envBase reqOk),
                some { autoDetectPlatform (pendingToProcessing recProcessing) with
                         status := .failed,
                         errorMessage := some (quotaErrorMessage envBase reqOk) })) :=
  C4_failed_exactly_on_first_or_sole_quota_drop envBase reqOk recProcessing
    "org-1" (by decide) rfl rfl rfl (Or.inr rfl) rfl

theorem pendingToProcessing_siteId (r : ImportRecord) :
    (pendingToProcessing r).siteId = r.siteId := by
  unfold pendingToProcessing; split <;> rfl

theorem autoDetectPlatform_siteId (r : ImportRecord) :
    (autoDetectPlatform r).siteId = r.siteId := by
  unfold autoDetectPlatform; split <;> rfl

theorem pendingToProcessing_of_processing (r : ImportRecord)
    (h : r.status = .processing) : pendingToProcessing r = r := by
  simp [pendingToProcessing, h]

theorem autoDetectPlatform_platform_ne_none (r : ImportRecord) :
    (autoDetectPlatform r).platform ≠ none := by
  unfold autoDetectPlatform
  split
  · simp
  · assumption

theorem autoDetectPlatform_of_ne_none (r : ImportRecord)
    (h : r.platform ≠ none) : autoDetectPlatform r = r := by
  simp [autoDetectPlatform, h]

/-! ## C1 — an all-quota-dropped later batch is answered with a failure -/

/-- C1 counterexample: a second-of-two batch whose single row is rejected
by the quota re-filter is answered with the 400 quota-exceeded failure
response, not with a no-op success of importedCount 0, even though
`batchIndex ≠ 0` and `totalBatches ≠ 1`. -/
theorem C1_counterexample :
    (quotaFilter envBase.canImportEvent reqBatch1of2.events).1 = []
      ∧ reqBatch1of2.batchIndex ≠ 0
      ∧ reqBatch1of2.totalBatches ≠ 1
      ∧ (batchImportEvents envBase reqBatch1of2).1
          = .quotaExceeded (quotaErrorMessage envBase reqBatch1of2)
      ∧ (batchImportEvents envBase reqBatch1of2).1.isSuccess = false := by
  refine ⟨by decide, by decide, by decide, by decide, by decide⟩

/-- C1 corrected: when the server-side quota re-filter drops every row of
a batch that is neither the first (`batchIndex ≠ 0`) nor the sole one
(`totalBatches ≠ 1`), the handler answers with the quota-exceeded
**failure** response (400, success false) — not a no-op success — while
leaving the import itself alone: the record keeps status processing and
its importedEvents count. -/
theorem C1_amended_all_dropped_later_batch (env : BatchEnv)
    (req : BatchRequest) (r : ImportRecord) (org : String)
    (hv : validBatchRequest req = true) (ha : env.userHasAccess = true)
    (hr : env.importRecord = some r) (hs : r.siteId = req.siteId)
    (hst : r.status = .pending ∨ r.status = .processing)
    (ho : env.siteOrg = some org)
    (hd : (quotaFilter env.canImportEvent req.events).1 = [])
    (hb : req.batchIndex ≠ 0) (ht : req.totalBatches ≠ 1) :
    batchImportEvents env req
        = (.quotaExceeded (quotaErrorMessage env req),
           some (autoDetectPlatform (pendingToProcessing r)))
      ∧ (batchImportEvents env req).1.isSuccess = false
      ∧ (autoDetectPlatform (pendingToProcessing r)).status = .processing
      ∧ (autoDetectPlatform (pendingToProcessing r)).importedEvents
          = r.importedEvents := by
  have hne : 0 < req.events.length := by
    simp only [validBatchRequest, Bool.and_eq_true, decide_eq_true_eq] at hv
    omega
  have h1 : batchImportEvents env req
      = (.quotaExceeded (quotaErrorMessage env req),
         some (autoDetectPlatform (pendingToProcessing r))) := by
    rw [batchImportEvents_reachable env req r org hv ha hr hs hst ho,
      processQuotaAndInsert_all_dropped_noop env req _ hd hne hb ht]
  refine ⟨h1, by rw [h1]; rfl, ?_, ?_⟩
  · rw [autoDetectPlatform_status]
    exact pendingToProcessing_status r hst
  · rw [autoDetectPlatform_importedEvents, pendingToProcessing_importedEvents]

/-- Witness for the corrected C1 at the concrete second-of-two batch. -/
theorem C1_amended_all_dropped_later_batch_witness :
    batchImportEvents envBase reqBatch1of2
        = (.quotaExceeded (quotaErrorMessage envBase reqBatch1of2),
           some (autoDetectPlatform (pendingToProcessing recProcessing)))
      ∧ (batchImportEvents envBase reqBatch1of2).1.isSuccess = false
      ∧ (autoDetectPlatform (pendingToProcessing recProcessing)).status = .processing
      ∧ (autoDetectPlatform (pendingToProcessing recProcessing)).importedEvents
          = recProcessing.importedEvents :=
  C1_amended_all_dropped_later_batch envBase reqBatch1of2 recProcessing "org-1"
    (by decide) rfl rfl rfl (Or.inr rfl) rfl (by decide) (by decide) (by decide)

/-! ## C3 — a write failure is batch-level and retryable -/

/-- C3: when the event-store bulk write fails on a reachable batch with
surviving rows, the handler answers the batch-level failure (500, success
false), the record keeps status processing — it is not transitioned to
failed — and importedEvents is not incremented; resubmitting the same
batch against the resulting record with a healthy store succeeds and adds
exactly the transformed rows to importedEvents. -/
theorem C3_write_failure_keeps_processing (env : BatchEnv)
    (req : BatchRequest) (r : ImportRecord) (org : String)
    (hv : validBatchRequest req = true) (ha : env.userHasAccess = true)
    (hr : env.importRecord = some r) (hs : r.siteId = req.siteId)
    (hst : r.status = .pending ∨ r.status = .processing)
    (ho : env.siteOrg = some org)
    (hins : env.insertOk = false)
    (hsur : (quotaFilter env.canImportEvent req.events).1 ≠ [])
    (htr : (env.transform (quotaFilter env.canImportEvent req.events).1).length ≠ 0) :
    batchImportEvents env req
        = (.insertFailed, some (autoDetectPlatform (pendingToProcessing r)))
      ∧ (batchImportEvents env req).1.isSuccess = false
      ∧ (autoDetectPlatform (pendingToProcessing r)).status = .processing
      ∧ (autoDetectPlatform (pendingToProcessing r)).importedEvents
          = r.importedEvents
      ∧ batchImportEvents
            { env with
                importRecord := some (autoDetectPlatform (pendingToProcessing r)),
                insertOk := true } req
          = (.success (env.transform (quotaFilter env.canImportEvent req.events).1).length,
             some { autoDetectPlatform (pendingToProcessing r) with
                      importedEvents :=
                        r.importedEvents
                          + (env.transform (quotaFilter env.canImportEvent req.events).1).length }) := by
  have hst2 : (autoDetectPlatform (pendingToProcessing r)).status = .processing := by
    rw [autoDetectPlatform_status]
    exact pendingToProcessing_status r hst
  have him : (autoDetectPlatform (pendingToProcessing r)).importedEvents
      = r.importedEvents := by
    rw [autoDetectPlatform_importedEvents, pendingToProcessing_importedEvents]
  have h1 : batchImportEvents env req
      = (.insertFailed, some (autoDetectPlatform (pendingToProcessing r))) := by
    rw [batchImportEvents_reachable env req r org hv ha hr hs hst ho,
      processQuotaAndInsert_insert_failed env req _ hsur htr hins]
  refine ⟨h1, by rw [h1]; rfl, hst2, him, ?_⟩
  have hfix : autoDetectPlatform
      (pendingToProcessing (autoDetectPlatform (pendingToProcessing r)))
      = autoDetectPlatform (pendingToProcessing r) := by
    rw [pendingToProcessing_of_processing _ hst2,
      autoDetectPlatform_of_ne_none _ (autoDetectPlatform_platform_ne_none _)]
  have hre2 := batchImportEvents_reachable
    { env with
        importRecord := some (autoDetectPlatform (pendingToProcessing r)),
        insertOk := true } req
    (autoDetectPlatform (pendingToProcessing r)) org hv ha rfl
    (by rw [autoDetectPlatform_siteId, pendingToProcessing_siteId]; exact hs)
    (Or.inr hst2) ho
  have hok := processQuotaAndInsert_insert_ok
    { env with
        importRecord := some (autoDetectPlatform (pendingToProcessing r)),
        insertOk := true }
    req (autoDetectPlatform (pendingToProcessing r)) hsur htr rfl
  rw [hre2, hfix, hok, him]

/-- Witness for C3: a one-row batch that survives quota, fails to insert,
then succeeds on resubmission. -/
theorem C3_write_failure_keeps_processing_witness :
    batchImportEvents envC3 reqOk
        = (.insertFailed, some (autoDetectPlatform (pendingToProcessing recProcessing)))
      ∧ (batchImportEvents envC3 reqOk).1.isSuccess = false
      ∧ (autoDetectPlatform (pendingToProcessing recProcessing)).status = .processing
      ∧ (autoDetectPlatform (pendingToProcessing recProcessing)).importedEvents
          = recProcessing.importedEvents
      ∧ batchImportEvents
            { envC3 with
                importRecord := some (autoDetectPlatform (pendingToProcessing recProcessing)),
                insertOk := true } reqOk
          = (.success (envC3.transform (quotaFilter envC3.canImportEvent reqOk.events).1).length,
             some { autoDetectPlatform (pendingToProcessing recProcessing) with
                      importedEvents :=
                        recProcessing.importedEvents
                          + (envC3.transform (quotaFilter envC3.canImportEvent reqOk.events).1).length }) :=
  C3_write_failure_keeps_processing envC3 reqOk recProcessing "org-1"
    (by decide) rfl rfl rfl (Or.inr rfl) rfl rfl (by decide) (by decide)

/-! ## C6 — the concurrency limit is never exceeded -/

/-- One atomic create attempt keeps every organization's active-import
count within the limit. -/
theorem create_preserves_limit (maxConcurrent : Nat) (s : LimiterState)
    (org org' : String)
    (h : ∀ o, activeImportCount s o ≤ maxConcurrent) :
    activeImportCount (createImportWithConcurrencyCheck maxConcurrent s org).2 org'
      ≤ maxConcurrent := by
  unfold createImportWithConcurrencyCheck
  split
  · exact h org'
  · rename_i hlt
    push_neg at hlt
    have h2 := h org'
    simp only [activeImportCount, LimiterImport.isActive, List.filter_cons]
      at hlt h2 ⊢
    by_cases heq : org = org'
    · subst heq
      simp
      omega
    · simp [heq]
      exact h2

/-- A serialized sequence of create attempts preserves the limit
invariant. -/
theorem runCreates_preserves_limit (maxConcurrent : Nat) (reqs : List String) :
    ∀ s0 : LimiterState,
      (∀ org, activeImportCount s0 org ≤ maxConcurrent) →
      ∀ org, activeImportCount (runCreates maxConcurrent s0 reqs) org
        ≤ maxConcurrent := by
  induction reqs with
  | nil =>
      intro s0 h org
      simpa [runCreates] using h org
  | cons o rest ih =>
      intro s0 h org
      simp only [runCreates]
      exact ih _ (fun o' => create_preserves_limit maxConcurrent s0 o o' h) org

/-- C6 (spec-modelled limiter): starting from any store within the
configured limit, no serialized interleaving of creation attempts ever
pushes any organization's count of pending/processing imports above the
limit; and an attempt at the limit is rejected with the distinct
concurrency-limit reason, leaving the store untouched. -/
theorem C6_concurrency_limit (maxConcurrent : Nat) (s0 : LimiterState)
    (hinv : ∀ org, activeImportCount s0 org ≤ maxConcurrent) :
    (∀ reqs : List String, ∀ org,
        activeImportCount (runCreates maxConcurrent s0 reqs) org ≤ maxConcurrent)
      ∧ ∀ org, activeImportCount s0 org = maxConcurrent →
          createImportWithConcurrencyCheck maxConcurrent s0 org
            = (.rejected (.concurrencyLimit maxConcurrent), s0) := by
  refine ⟨fun reqs => runCreates_preserves_limit maxConcurrent reqs s0 hinv, ?_⟩
  intro org he
  unfold createImportWithConcurrencyCheck
  rw [if_pos (le_of_eq he.symm)]

/-- Witness for C6: limit 1, a store with one processing import of
`"org-1"`; two further attempts never exceed the limit, and the attempt at
the limit is rejected with the concurrency-limit reason. -/
theorem C6_concurrency_limit_witness :
    activeImportCount (runCreates 1 limStateW ["org-1", "org-2"]) "org-1" ≤ 1
      ∧ createImportWithConcurrencyCheck 1 limStateW "org-1"
          = (.rejected (.concurrencyLimit 1), limStateW) := by
  have hinv : ∀ org, activeImportCount limStateW org ≤ 1 := by
    intro org
    by_cases h : ("org-1" : String) = org <;>
      simp [activeImportCount, limStateW, LimiterImport.isActive, List.filter, h]
  have hc := C6_concurrency_limit 1 limStateW hinv
  exact ⟨hc.1 ["org-1", "org-2"] "org-1", hc.2 "org-1" (by decide)⟩

/-! ## Lemmas on the streaming parser -/

theorem sendChunk_totalErrors (st : ParserState) :
    (sendChunk st).1.totalErrors = st.totalErrors := by
  unfold sendChunk; split <;> rfl

theorem sendChunk_totalSkipped (st : ParserState) :
    (sendChunk st).1.totalSkipped = st.totalSkipped := by
  unfold sendChunk; split <;> rfl

/-- `handleParsedRow` never touches the errors counter: only the `step`
callback's error handling does. -/
theorem handleParsedRow_totalErrors (parseTs : String → Option Int)
    (cfg : DateRangeCfg) (st : ParserState) (row : UmamiEvent) :
    (handleParsedRow parseTs cfg st row).1.totalErrors = st.totalErrors := by
  simp only [handleParsedRow]
  split_ifs <;> simp [sendChunk]

/-- A row with an empty timestamp is counted as skipped only, with no
message emitted. -/
theorem handleParsedRow_no_timestamp (parseTs : String → Option Int)
    (cfg : DateRangeCfg) (st : ParserState) (row : UmamiEvent)
    (h : row.created_at = "") :
    handleParsedRow parseTs cfg st row
      = ({ st with totalSkipped := st.totalSkipped + 1 }, []) := by
  simp [handleParsedRow, h]

/-- A row whose timestamp is present but out of range — which includes a
timestamp that fails to parse — is counted as skipped only, with no
message emitted. -/
theorem handleParsedRow_out_of_range (parseTs : String → Option Int)
    (cfg : DateRangeCfg) (st : ParserState) (row : UmamiEvent)
    (hne : row.created_at ≠ "")
    (hrange : isDateInRange parseTs cfg row.created_at = false) :
    handleParsedRow parseTs cfg st row
      = ({ st with totalSkipped := st.totalSkipped + 1 }, []) := by
  simp [handleParsedRow, hne, hrange]

/-- An unparseable timestamp is out of range. -/
theorem isDateInRange_parse_fail (parseTs : String → Option Int)
    (cfg : DateRangeCfg) (s : String) (h : parseTs s = none) :
    isDateInRange parseTs cfg s = false := by
  simp [isDateInRange, h]

/-! ## C5 — an unparseable timestamp is skipped, not an error -/

/-- C5 counterexample: on a row whose `created_at` is present but fails to
parse, the worker increments the skipped counter and leaves the errors
counter at zero — contradicting the claim that such a row is counted as an
error and not as skipped. -/
theorem C5_counterexample :
    rowBadTs.created_at ≠ ""
      ∧ parseTsModel rowBadTs.created_at = none
      ∧ (handleParsedRow parseTsModel cfgW ParserState.initial rowBadTs).1.totalErrors = 0
      ∧ (handleParsedRow parseTsModel cfgW ParserState.initial rowBadTs).1.totalSkipped = 1 := by
  refine ⟨by decide, by decide, by decide, by decide⟩

/-- C5 corrected: a row whose timestamp is present but fails to parse is
counted as a skipped row (`isDateInRange` returns false on an invalid
parse), never appears in any message, and the errors counter is untouched;
the errors counter increments exactly when the underlying row parse
reports errors in a step. -/
theorem C5_amended_unparseable_timestamp_skipped
    (parseTs : String → Option Int) (cfg : DateRangeCfg) (st : ParserState)
    (row : UmamiEvent) (hne : row.created_at ≠ "")
    (hparse : parseTs row.created_at = none) :
    handleParsedRow parseTs cfg st row
        = ({ st with totalSkipped := st.totalSkipped + 1 }, [])
      ∧ ∀ (acc : ParserState × Nat) (res : StepResult),
          (stepCallback parseTs cfg acc res).1.1.totalErrors
            = acc.1.totalErrors + (if 0 < res.errors.length then 1 else 0) := by
  constructor
  · exact handleParsedRow_out_of_range parseTs cfg st row hne
      (isDateInRange_parse_fail parseTs cfg row.created_at hparse)
  · intro acc res
    cases hd : res.data with
    | none =>
        simp only [stepCallback, hd]
        split_ifs <;> simp_all
    | some r =>
        simp only [stepCallback, hd]
        split_ifs <;> simp_all [handleParsedRow_totalErrors]

/-- Witness for the corrected C5 at the concrete unparseable row and the
concrete erroring step. -/
theorem C5_amended_unparseable_timestamp_skipped_witness :
    handleParsedRow parseTsModel cfgW ParserState.initial rowBadTs
        = ({ ParserState.initial with
               totalSkipped := ParserState.initial.totalSkipped + 1 }, [])
      ∧ (stepCallback parseTsModel cfgW (ParserState.initial, 0)
            { data := none, errors := ["Too few fields"] }).1.1.totalErrors
          = ParserState.initial.totalErrors
              + (if 0 < (["Too few fields"] : List String).length then 1 else 0) := by
  have h := C5_amended_unparseable_timestamp_skipped parseTsModel cfgW
    ParserState.initial rowBadTs (by decide) (by decide)
  exact ⟨h.1, h.2 (ParserState.initial, 0) { data := none, errors := ["Too few fields"] }⟩

theorem sendChunk_spec (st : ParserState) :
    (st.currentBatch.length = 0 ∧ sendChunk st = (st, []))
      ∨ (0 < st.currentBatch.length
         ∧ sendChunk st
             = ({ st with chunkIndex := st.chunkIndex + 1, currentBatch := [] },
                [.chunkReady st.currentBatch st.chunkIndex])) := by
  unfold sendChunk
  split_ifs with h
  · exact Or.inr ⟨h, rfl⟩
  · exact Or.inl ⟨by omega, rfl⟩

/-- The one-row behaviour of `handleParsedRow`, assuming the batch is below
the chunk size: either the row is not admitted, or it is appended without
reaching the chunk size, or appending it reaches exactly `CHUNK_SIZE` and
that full batch is emitted as the one chunk, with the chunk index advanced.
Admitted rows always carry a nonempty timestamp, and the resulting batch is
again below the chunk size. -/
theorem handleParsedRow_spec (parseTs : String → Option Int)
    (cfg : DateRangeCfg) (st : ParserState) (row : UmamiEvent)
    (hlt : st.currentBatch.length < CHUNK_SIZE) :
    (handleParsedRow parseTs cfg st row).1.currentBatch.length < CHUNK_SIZE
      ∧ ((chunkMsgs (handleParsedRow parseTs cfg st row).2 = []
          ∧ (handleParsedRow parseTs cfg st row).1.chunkIndex = st.chunkIndex
          ∧ ((handleParsedRow parseTs cfg st row).1.currentBatch = st.currentBatch
             ∨ ((handleParsedRow parseTs cfg st row).1.currentBatch
                  = st.currentBatch ++ [row]
                ∧ row.created_at ≠ "")))
        ∨ (chunkMsgs (handleParsedRow parseTs cfg st row).2
              = [(st.currentBatch ++ [row], st.chunkIndex)]
           ∧ (st.currentBatch ++ [row]).length = CHUNK_SIZE
           ∧ row.created_at ≠ ""
           ∧ (handleParsedRow parseTs cfg st row).1.chunkIndex = st.chunkIndex + 1
           ∧ (handleParsedRow parseTs cfg st row).1.currentBatch = [])) := by
  simp only [handleParsedRow, sendChunk]
  split_ifs with h1 h2 h3 h4 h5 h6 h7 <;>
    simp_all [chunkMsgs, sendProgress] <;> omega

theorem chunkMsgs_append (a b : List OutMsg) :
    chunkMsgs (a ++ b) = chunkMsgs a ++ chunkMsgs b := by
  simp [chunkMsgs]

/-- The `step` callback inherits the one-row behaviour: the error-handling
tail touches neither the batch nor the chunk index nor the messages. -/
theorem stepCallback_spec (parseTs : String → Option Int) (cfg : DateRangeCfg)
    (acc : ParserState × Nat) (res : StepResult)
    (hlt : acc.1.currentBatch.length < CHUNK_SIZE) :
    (stepCallback parseTs cfg acc res).1.1.currentBatch.length < CHUNK_SIZE
      ∧ ((chunkMsgs (stepCallback parseTs cfg acc res).2 = []
          ∧ (stepCallback parseTs cfg acc res).1.1.chunkIndex = acc.1.chunkIndex
          ∧ ((stepCallback parseTs cfg acc res).1.1.currentBatch = acc.1.currentBatch
             ∨ ∃ row, (stepCallback parseTs cfg acc res).1.1.currentBatch
                  = acc.1.currentBatch ++ [row]
                ∧ row.created_at ≠ ""))
        ∨ ∃ row,
            chunkMsgs (stepCallback parseTs cfg acc res).2
                = [(acc.1.currentBatch ++ [row], acc.1.chunkIndex)]
              ∧ (acc.1.currentBatch ++ [row]).length = CHUNK_SIZE
              ∧ row.created_at ≠ ""
              ∧ (stepCallback parseTs cfg acc res).1.1.chunkIndex
                  = acc.1.chunkIndex + 1
              ∧ (stepCallback parseTs cfg acc res).1.1.currentBatch = []) := by
  cases hd : res.data with
  | none =>
      simp only [stepCallback, hd]
      split_ifs with he <;> exact ⟨hlt, Or.inl ⟨rfl, rfl, Or.inl rfl⟩⟩
  | some row =>
      obtain ⟨ha, hb⟩ := handleParsedRow_spec parseTs cfg acc.1 row hlt
      simp only [stepCallback, hd]
      split_ifs with he <;>
      · refine ⟨ha, ?_⟩
        rcases hb with ⟨hm, hi, hbatch⟩ | ⟨hm, hC, hrow, hi, hbatch⟩
        · rcases hbatch with h | ⟨h, hne⟩
          · exact Or.inl ⟨hm, hi, Or.inl h⟩
          · exact Or.inl ⟨hm, hi, Or.inr ⟨row, h, hne⟩⟩
        · exact Or.inr ⟨row, hm, hC, hrow, hi, hbatch⟩

/-- Invariant of the streaming phase: starting below the chunk size with
only admitted (nonempty-timestamp) rows buffered, every emitted chunk has
exactly `CHUNK_SIZE` admitted rows, the chunk indices run consecutively
from the starting index, the final index equals the starting index plus
the number of emitted chunks, and the leftover batch is again below the
chunk size, holding admitted rows only. -/
theorem runSteps_spec (parseTs : String → Option Int) (cfg : DateRangeCfg)
    (stream : List StepResult) :
    ∀ acc : ParserState × Nat,
      acc.1.currentBatch.length < CHUNK_SIZE →
      (∀ e ∈ acc.1.currentBatch, e.created_at ≠ "") →
      (runSteps parseTs cfg acc stream).1.1.currentBatch.length < CHUNK_SIZE
      ∧ (∀ e ∈ (runSteps parseTs cfg acc stream).1.1.currentBatch,
           e.created_at ≠ "")
      ∧ (∀ c ∈ chunkMsgs (runSteps parseTs cfg acc stream).2,
           c.1.length = CHUNK_SIZE ∧ ∀ e ∈ c.1, e.created_at ≠ "")
      ∧ (chunkMsgs (runSteps parseTs cfg acc stream).2).map Prod.snd
          = List.range' acc.1.chunkIndex
              (chunkMsgs (runSteps parseTs cfg acc stream).2).length
      ∧ (runSteps parseTs cfg acc stream).1.1.chunkIndex
          = acc.1.chunkIndex
              + (chunkMsgs (runSteps parseTs cfg acc stream).2).length := by
  induction stream with
  | nil =>
      intro acc h1 h2
      exact ⟨h1, h2, by simp [runSteps, chunkMsgs], by simp [runSteps, chunkMsgs],
        by simp [runSteps, chunkMsgs]⟩
  | cons res rest ih =>
      intro acc h1 h2
      obtain ⟨sa, sb⟩ := stepCallback_spec parseTs cfg acc res h1
      have hbOk : ∀ e ∈ (stepCallback parseTs cfg acc res).1.1.currentBatch,
          e.created_at ≠ "" := by
        rcases sb with ⟨_, _, hbatch⟩ | ⟨row, _, _, _, _, hbatch⟩
        · rcases hbatch with h | ⟨row, h, hne⟩
          · rw [h]; exact h2
          · rw [h]
            intro e he
            rcases List.mem_append.mp he with h' | h'
            · exact h2 e h'
            · rw [List.mem_singleton.mp h']; exact hne
        · rw [hbatch]; intro e he; simp at he
      obtain ⟨ta, tb, tc, td, te⟩ := ih (stepCallback parseTs cfg acc res).1 sa hbOk
      simp only [runSteps]
      rw [chunkMsgs_append]
      refine ⟨ta, tb, ?_, ?_, ?_⟩
      · intro c hc
        rcases List.mem_append.mp hc with h' | h'
        · rcases sb with ⟨hm, _, _⟩ | ⟨row, hm, hC, hrow, _, _⟩
          · rw [hm] at h'; simp at h'
          · rw [hm] at h'
            rw [List.mem_singleton.mp h']
            refine ⟨hC, ?_⟩
            intro e he
            rcases List.mem_append.mp he with h'' | h''
            · exact h2 e h''
            · rw [List.mem_singleton.mp h'']; exact hrow
        · exact tc c h'
      · rw [List.map_append, td, List.length_append]
        rcases sb with ⟨hm, hi, _⟩ | ⟨row, hm, hC, hrow, hi, _⟩
        · rw [hm, hi]
          simp
        · rw [hm, hi]
          simp only [List.map_cons, List.map_nil, List.length_cons,
            List.length_nil]
          rw [Nat.zero_add, Nat.add_comm 1, List.range'_succ]
          rfl
      · rw [List.length_append, te]
        rcases sb with ⟨hm, hi, _⟩ | ⟨row, hm, _, _, hi, _⟩
        · rw [hm, hi]
          simp
        · rw [hm, hi]
          simp
          omega

theorem CHUNK_SIZE_pos : 0 < CHUNK_SIZE := by decide

theorem chunkMsgs_of_pair_nil (st : ParserState) :
    chunkMsgs ((st, ([] : List OutMsg)) : ParserState × List OutMsg).2 = [] := rfl

theorem chunkMsgs_of_pair_chunkReady (st : ParserState)
    (b : List UmamiEvent) (i : Nat) :
    chunkMsgs ((st, [OutMsg.chunkReady b i]) : ParserState × List OutMsg).2
      = [(b, i)] := rfl

/-- Only the streaming phase and the final flush contribute `CHUNK_READY`
messages to a parse: progress and completion messages carry no chunks. -/
theorem chunkMsgs_parseCSV (parseTs : String → Option Int)
    (cfg : DateRangeCfg) (stream : List StepResult) :
    chunkMsgs (parseCSV parseTs cfg stream)
      = chunkMsgs (runSteps parseTs cfg (ParserState.initial, 0) stream).2
          ++ chunkMsgs
              (sendChunk (runSteps parseTs cfg (ParserState.initial, 0) stream).1.1).2 := by
  simp only [parseCSV]
  rw [chunkMsgs_append, chunkMsgs_append, chunkMsgs_append]
  simp [chunkMsgs, sendProgress]

/-! ## C7 — rows without a timestamp are skipped and never shipped -/

/-- C7: a row with an empty/absent `created_at` is counted as skipped (not
as an error — no counter other than totalSkipped moves and nothing is
emitted for it), and no event with an empty `created_at` ever appears in
any emitted `CHUNK_READY` batch of any parse. -/
theorem C7_missing_timestamp_skipped (parseTs : String → Option Int)
    (cfg : DateRangeCfg) (st : ParserState) (row : UmamiEvent)
    (hrow : row.created_at = "") :
    handleParsedRow parseTs cfg st row
        = ({ st with totalSkipped := st.totalSkipped + 1 }, [])
      ∧ ∀ stream : List StepResult, ∀ evs i,
          (evs, i) ∈ chunkMsgs (parseCSV parseTs cfg stream) →
          ∀ e ∈ evs, e.created_at ≠ "" := by
  refine ⟨handleParsedRow_no_timestamp parseTs cfg st row hrow, ?_⟩
  intro stream evs i hmem e he
  obtain ⟨ra, rb, rc, rd, re⟩ := runSteps_spec parseTs cfg stream
    (ParserState.initial, 0) (by decide) (by simp [ParserState.initial])
  rw [chunkMsgs_parseCSV] at hmem
  rcases sendChunk_spec
      (runSteps parseTs cfg (ParserState.initial, 0) stream).1.1 with
    ⟨h0, heq⟩ | ⟨hpos, heq⟩
  · rw [heq] at hmem
    simp only [chunkMsgs, List.filterMap_nil, List.append_nil] at hmem
    exact (rc (evs, i) hmem).2 e he
  · rw [heq] at hmem
    rcases List.mem_append.mp hmem with h' | h'
    · exact (rc (evs, i) h').2 e he
    · simp only [chunkMsgs, List.filterMap_cons, List.filterMap_nil] at h'
      rw [List.mem_singleton] at h'
      rw [Prod.mk.injEq] at h'
      rw [← h'.1] at rb
      exact rb e he

/-- Witness for C7 on the concrete no-timestamp row and the concrete
three-step stream. -/
theorem C7_missing_timestamp_skipped_witness :
    handleParsedRow parseTsModel cfgW ParserState.initial rowNoTs
        = ({ ParserState.initial with
               totalSkipped := ParserState.initial.totalSkipped + 1 }, [])
      ∧ ∀ evs i, (evs, i) ∈ chunkMsgs (parseCSV parseTsModel cfgW streamW) →
          ∀ e ∈ evs, e.created_at ≠ "" := by
  have h := C7_missing_timestamp_skipped parseTsModel cfgW
    ParserState.initial rowNoTs rfl
  exact ⟨h.1, h.2 streamW⟩

/-! ## C8 — chunking: bounded sizes and consecutive indices -/

/-- C8: every `CHUNK_READY` message of a parse carries between 1 and
`CHUNK_SIZE` (5000) events — full chunks are flushed the moment the batch
reaches the threshold, and the end-of-stream flush emits the one partial
remainder if any rows are left — and the chunk indices of the emitted
messages are exactly 0, 1, 2, … in order. -/
theorem C8_chunk_size_and_consecutive_indices (parseTs : String → Option Int)
    (cfg : DateRangeCfg) (stream : List StepResult) :
    (∀ c ∈ chunkMsgs (parseCSV parseTs cfg stream),
        1 ≤ c.1.length ∧ c.1.length ≤ CHUNK_SIZE)
      ∧ (chunkMsgs (parseCSV parseTs cfg stream)).map Prod.snd
          = List.range (chunkMsgs (parseCSV parseTs cfg stream)).length := by
  obtain ⟨ra, rb, rc, rd, re⟩ := runSteps_spec parseTs cfg stream
    (ParserState.initial, 0) (by decide) (by simp [ParserState.initial])
  rw [show ((ParserState.initial, 0) : ParserState × Nat).1.chunkIndex
      = 0 from rfl] at rd re
  rw [Nat.zero_add] at re
  rw [chunkMsgs_parseCSV]
  rcases sendChunk_spec
      (runSteps parseTs cfg (ParserState.initial, 0) stream).1.1 with
    ⟨h0, heq⟩ | ⟨hpos, heq⟩
  · rw [heq, chunkMsgs_of_pair_nil, List.append_nil]
    constructor
    · intro c hc
      obtain ⟨hlen, _⟩ := rc c hc
      rw [hlen]
      exact ⟨CHUNK_SIZE_pos, Nat.le_refl _⟩
    · rw [List.range_eq_range']
      exact rd
  · rw [heq, chunkMsgs_of_pair_chunkReady]
    constructor
    · intro c hc
      rcases List.mem_append.mp hc with h' | h'
      · obtain ⟨hlen, _⟩ := rc c h'
        rw [hlen]
        exact ⟨CHUNK_SIZE_pos, Nat.le_refl _⟩
      · rw [List.mem_singleton.mp h']
        exact ⟨hpos, Nat.le_of_lt ra⟩
    · rw [List.map_append, rd, List.length_append, re,
        List.range_eq_range']
      simp [List.range'_concat]

end Rybbit
